import Mathlib

/-!
# Verification of the ann_scraper reconciliation core

A shallow embedding of `src/ann_scraper.py`: the SQLite-backed entry index
(`create_table` / `insert_entries` / `update_entries`), the per-kind XML
documents with the in-place duplicate removal (`remove_duplicates`), the
regeneration path (`regenerate_database`), the batched sampling download loop
(`download_entries`), and the progress reporting (`progress` plus the
percentage computation in `main`).

Modelling conventions:
* a SQLite `entry` row becomes a `Row`; the table is a `List Row` in insertion
  order (the primary-key uniqueness of `id` is carried as a `Nodup` hypothesis
  where a claim needs it);
* an XML element of a per-kind document (or of an API response) becomes a
  `DocNode` holding the `id` and `generated-on` attributes that the code reads;
* the external network calls (`urlopen` on the encyclopedia API) and
  `random.sample` are oracles passed in as function arguments; the contracts
  they satisfy in reality (`FetchOK`, `SampleOK`) are explicit hypotheses;
* SQL three-valued logic for `entry.type in (...)` / `not in (...)` on a NULL
  column is modelled: a `none` type matches neither filter;
* SQLite's INTEGER column affinity converts an all-digit TEXT parameter to an
  integer before comparing with `entry.id`, modelled by `sqliteToNat?`;
* Python's `ZeroDivisionError` (an unhandled exception) is modelled by an
  explicit error outcome at the exact program point where the division occurs.
-/

/-- A row of the SQLite `entry` table (`create_table`, lines 25-37).
`generated_on` is NULL (`none`) for an indexed-but-unfetched entry.
The metadata columns the queries never read are kept as opaque text. -/
structure Row where
  id : Nat
  gid : Option String
  type : Option String
  name : Option String
  precision : Option String
  vintage : Option String
  generated_on : Option String
deriving DecidableEq, Repr

/-- An `<item>` of the master list `index.xml`, as read by `index_to_tuple`
(lines 174-182): the six metadata child texts, before `generated_on` is
appended as NULL. -/
structure Item where
  id : Nat
  gid : Option String
  type : Option String
  name : Option String
  precision : Option String
  vintage : Option String
deriving DecidableEq, Repr

/-- An element of a per-kind document (`anime.xml` / `manga.xml`) or of an API
response: the code reads only the `id` and `generated-on` attributes
(`entry_to_tuple`, lines 169-172; `remove_duplicates`, line 191). -/
structure DocNode where
  id : String
  generated_on : Option String
deriving DecidableEq, Repr

/-- Model of `index_to_tuple` (lines 174-182): an `<item>` becomes an `Entry` tuple with
`generated_on = None` appended. -/
def index_to_tuple (it : Item) : Row :=
  { id := it.id, gid := it.gid, type := it.type, name := it.name,
    precision := it.precision, vintage := it.vintage, generated_on := none }

/-- Model of `entry_to_tuple` (lines 169-172): `(node.attrib.get('generated-on'),
node.attrib.get('id'))`, the parameter pair for the UPDATE statement. -/
def entry_to_tuple (n : DocNode) : Option String × String :=
  (n.generated_on, n.id)

/-- Model of `insert_entries` (lines 39-48): plain INSERTs, i.e. rows are appended. -/
def insert_entries (rows : List Row) (values : List Row) : List Row :=
  rows ++ values

/-- One decimal digit of a TEXT parameter. -/
def charDigit (c : Char) : Option Nat :=
  if 48 ≤ c.toNat ∧ c.toNat ≤ 57 then some (c.toNat - 48) else none

/-- Decimal value of a digit run, by accumulation; `none` on a non-digit. -/
def digitsValAux : List Char → Nat → Option Nat
  | [], acc => some acc
  | c :: cs, acc =>
    match charDigit c with
    | some d => digitsValAux cs (acc * 10 + d)
    | none => none

/-- SQLite INTEGER affinity applied to a TEXT value in a comparison with an
INTEGER column: an all-digit string converts to the integer it denotes; any
other string stays TEXT and compares unequal to every integer. -/
def sqliteToNat? (s : String) : Option Nat :=
  match s.data with
  | [] => none
  | _ => digitsValAux s.data 0

/-- One UPDATE execution of `update entry set generated_on=? where entry.id=?`
(line 53): every row whose INTEGER `id` equals the (affinity-converted) text
parameter gets its `generated_on` replaced by the first parameter. -/
def applyUpdate (rows : List Row) (v : Option String × String) : List Row :=
  rows.map (fun r => if sqliteToNat? v.2 = some r.id then { r with generated_on := v.1 } else r)

/-- Model of `update_entries` (lines 50-54): `executemany` runs the UPDATE once per
value tuple, in order. -/
def update_entries (rows : List Row) (values : List (Option String × String)) : List Row :=
  values.foldl applyUpdate rows

/-- The WHERE clause built in `download_entries` (lines 110-112):
`entry.type not in ('manga', 'anthology')` when the requested type is
`anime`, else `entry.type in ('manga', 'anthology')`. A NULL `type` satisfies
neither form (SQL three-valued logic). -/
def bucketFilterD (entry_type : String) (t : Option String) : Bool :=
  match t with
  | none => false
  | some s =>
    if entry_type == "anime" then !(s == "manga" || s == "anthology")
    else s == "manga" || s == "anthology"

/-- The WHERE clause built in `progress` (lines 233-235), transcribed from its
own source lines: same shape as the one in `download_entries`. -/
def bucketFilterP (entry_type : String) (t : Option String) : Bool :=
  match t with
  | none => false
  | some s =>
    if entry_type == "anime" then !(s == "manga" || s == "anthology")
    else s == "manga" || s == "anthology"

/-- The list `total_id` (lines 110-114): ids of all rows in the requested kind bucket,
with multiplicity, in table order. -/
def totalIds (db : List Row) (entry_type : String) : List Nat :=
  (db.filter (fun r => bucketFilterD entry_type r.type)).map Row.id

/-- The list `seen_id` (lines 116-118): the same filter with
`and entry.generated_on is not null` appended. -/
def seenIds (db : List Row) (entry_type : String) : List Nat :=
  (db.filter (fun r => bucketFilterD entry_type r.type && r.generated_on.isSome)).map Row.id

/-- The set `not_seen = set(total_id) - set(seen_id)` (line 120). -/
def unfetchedIds (db : List Row) (entry_type : String) : Finset Nat :=
  (totalIds db entry_type).toFinset \ (seenIds db entry_type).toFinset

/-- Model of `progress` (lines 230-241): `(seen, total)` row counts for the kind
bucket, the `seen` query adding `generated_on is not null`. -/
def progress (db : List Row) (entry_type : String) : Nat × Nat :=
  let total := (db.filter (fun r => bucketFilterP entry_type r.type)).length
  let seen := (db.filter (fun r => bucketFilterP entry_type r.type && r.generated_on.isSome)).length
  (seen, total)

/-- An error of the status-reporting path of `main`. -/
inductive MainError where
  | zeroDivision
deriving DecidableEq, Repr

/-- The `--status` branch of `main` (lines 269-272): it computes
`seen/total*100`, which raises `ZeroDivisionError` exactly when `total == 0`;
otherwise the counts are reported. -/
def statusReport (db : List Row) (entry_type : String) : Except MainError (Nat × Nat) :=
  let p := progress db entry_type
  if p.2 = 0 then Except.error MainError.zeroDivision else Except.ok p

/-- The body of the `for node in root` loop of `remove_duplicates`
(lines 189-194), replaying CPython's list-iterator semantics: the iterator
yields the element at a cursor position and advances the cursor; the body
removes a duplicate node in place (shifting later elements left one place,
so the element adjacent to a removed duplicate is skipped) and adds the id to
`seen_ids` in both branches. The fuel starts at the initial list length: the
cursor advances on every step and the list never grows, so that many steps
always reach the end of the list. -/
def rdLoop : Nat → List DocNode → Nat → List String → List DocNode
  | 0, l, _, _ => l
  | fuel + 1, l, idx, seen =>
    if h : idx < l.length then
      let node := l.get ⟨idx, h⟩
      if node.id ∈ seen then rdLoop fuel (l.eraseIdx idx) (idx + 1) (node.id :: seen)
      else rdLoop fuel l (idx + 1) (node.id :: seen)
    else l

/-- Model of `remove_duplicates` (lines 184-196) on the record list of one document:
parse, iterate removing already-seen ids in place, write back. -/
def remove_duplicates (l : List DocNode) : List DocNode :=
  rdLoop l.length l 0 []

/-- One iteration of the regeneration document loop body (lines 218-225) for
one kind: if the document file is absent, skip; otherwise deduplicate it in
place (rewriting the file), re-parse it, and run the UPDATE for each node. -/
def regenKind (rows : List Row) (doc : Option (List DocNode)) :
    List Row × Option (List DocNode) :=
  match doc with
  | none => (rows, none)
  | some d =>
    let d' := remove_duplicates d
    (update_entries rows (d'.map entry_to_tuple), some d')

/-- The result of `regenerate_database`: the rebuilt table and the (possibly
rewritten) per-kind documents. -/
structure RegenResult where
  rows : List Row
  animeDoc : Option (List DocNode)
  mangaDoc : Option (List DocNode)
deriving DecidableEq, Repr

/-- Model of `regenerate_database` (lines 198-228): delete the old database, create the
table, bulk-insert the master list via `index_to_tuple` (all `generated_on`
NULL), then for `entry_type in ('anime', 'manga')` deduplicate the existing
document and mark its nodes via `update_entries`. -/
def regenerate_database (items : List Item)
    (animeDoc mangaDoc : Option (List DocNode)) : RegenResult :=
  let rows0 := insert_entries [] (items.map index_to_tuple)
  let pa := regenKind rows0 animeDoc
  let pm := regenKind pa.1 mangaDoc
  { rows := pm.1, animeDoc := pa.2, mangaDoc := pm.2 }

/-- An observable step of one iteration of the `download_entries` loop, in
source order: the API request (`urlopen`, line 147), the document write to
disk (`local.write`, line 153), the UPDATE statements (`update_entries`,
line 157), and the transaction commit (`conn.commit`, line 167). -/
inductive Event where
  | fetchReq (ids : Finset Nat)
  | persistDoc
  | markFetched (values : List (Option String × String))
  | commit
deriving DecidableEq

/-- The mutable state of the `download_entries` loop (lines 132-167): the
table seen through the connection, the in-memory document tree, the remaining
`not_seen` set, the remaining requested count, the current batch size, and the
trace of observable events so far. -/
structure DlState where
  db : List Row
  doc : List DocNode
  not_seen : Finset Nat
  num_entries : Int
  num_batch : Nat
  trace : List Event
deriving DecidableEq

/-- How a `download_entries` run ends: normal loop exit, or the unhandled
`ZeroDivisionError` of the progress line (line 165). Both carry the state at
that point. -/
inductive DlOutcome where
  | ok (st : DlState)
  | zeroDiv (st : DlState)
deriving DecidableEq

/-- The state carried by either outcome. -/
def outState : DlOutcome → DlState
  | DlOutcome.ok st => st
  | DlOutcome.zeroDiv st => st

/-- The batch-selection step (lines 136-139): take all of `not_seen` when it
fits in the batch, otherwise `random.sample` (modelled by the `sample`
oracle) a batch-sized subset. -/
def nextBatch (sample : Finset Nat → Nat → Finset Nat)
    (not_seen : Finset Nat) (num_batch : Nat) : Finset Nat :=
  if not_seen.card ≤ num_batch then not_seen else sample not_seen num_batch

/-- The body of one iteration of the `download_entries` loop (lines 133-160),
up to but not including the commit: clamp the batch to the remaining count
(line 133), select the batch (lines 136-139), request it from the API
(line 147), extend the in-memory document and write it to disk (lines
151-153), run the UPDATE statements (lines 156-157), remove the batch from
`not_seen` and decrement the remaining count (lines 159-160). -/
def dlStep (fetch : Finset Nat → List DocNode)
    (sample : Finset Nat → Nat → Finset Nat) (st : DlState) : DlState :=
  let nb := min st.num_batch st.num_entries.toNat
  let td := nextBatch sample st.not_seen nb
  let children := fetch td
  let vals := children.map entry_to_tuple
  { db := update_entries st.db vals
    doc := st.doc ++ children
    not_seen := st.not_seen \ td
    num_entries := st.num_entries - (nb : Int)
    num_batch := nb
    trace := st.trace ++ [Event.fetchReq td, Event.persistDoc, Event.markFetched vals] }

/-- The `while num_entries > 0` loop of `download_entries` (lines 132-167).
`fetch` is the external encyclopedia API (requested id set to returned
elements); `num_total` is `len(total_id)`, computed once before the loop.
Each iteration runs `dlStep`, then the progress log of lines 162-165 divides
by `num_total` — an unhandled `ZeroDivisionError` when it is zero — and
finally the transaction commits (line 167). The `fuel` bounds the number of
iterations so the model is total; `none` means the fuel ran out before the
loop exited (which the termination theorem rules out for a positive batch
size, the fuel being chosen as the requested count). -/
def downloadLoop (fetch : Finset Nat → List DocNode)
    (sample : Finset Nat → Nat → Finset Nat) (num_total : Nat) :
    Nat → DlState → Option DlOutcome
  | 0, st => if st.num_entries ≤ 0 then some (DlOutcome.ok st) else none
  | fuel + 1, st =>
    if st.num_entries ≤ 0 then some (DlOutcome.ok st)
    else if num_total = 0 then some (DlOutcome.zeroDiv (dlStep fetch sample st))
    else downloadLoop fetch sample num_total fuel
      { dlStep fetch sample st with
        trace := (dlStep fetch sample st).trace ++ [Event.commit] }

/-- Model of `download_entries` (lines 96-167): compute the bucket id lists and the
`not_seen` set, replace a negative requested count by `len(not_seen)`
(line 121-122), load the local document (empty when the file is absent,
lines 125-130), and run the loop. The fuel `num_entries.toNat` suffices
whenever the batch size is positive, because every iteration decrements the
remaining count by at least one. -/
def download_entries (fetch : Finset Nat → List DocNode)
    (sample : Finset Nat → Nat → Finset Nat) (db : List Row)
    (entry_type : String) (num_entries : Int) (num_batch : Nat)
    (doc0 : Option (List DocNode)) : Option DlOutcome :=
  let not_seen := unfetchedIds db entry_type
  let ne : Int := if num_entries < 0 then (not_seen.card : Int) else num_entries
  downloadLoop fetch sample (totalIds db entry_type).length ne.toNat
    { db := db, doc := doc0.getD [], not_seen := not_seen,
      num_entries := ne, num_batch := num_batch, trace := [] }

/-- The id sets of the API requests appearing in a trace, in order. -/
def reqsOf (t : List Event) : List (Finset Nat) :=
  t.filterMap (fun e => match e with | Event.fetchReq s => some s | _ => none)

/-- The union of all requested id sets of a trace. -/
def unionReqs (t : List Event) : Finset Nat :=
  (reqsOf t).foldr (· ∪ ·) ∅

/-- Trace check for the persist-before-commit discipline: scanning left to
right, every `commit` must have seen a `persistDoc` since the previous
`commit`. The flag records whether the current batch's document write has
happened. -/
def pbc : Bool → List Event → Bool
  | _, [] => true
  | _, Event.persistDoc :: r => pbc true r
  | f, Event.commit :: r => f && pbc false r
  | f, _ :: r => pbc f r

/-- The contract of `random.sample(population, k)` for `k ≤ |population|`
(line 139): `k` distinct elements drawn from the population. -/
def SampleOK (sample : Finset Nat → Nat → Finset Nat) : Prop :=
  ∀ s k, k ≤ s.card → sample s k ⊆ s ∧ (sample s k).card = k

/-- The contract of the external encyclopedia API (§6 of the spec): a batch
fetch returns elements only for the requested ids, so every returned node
whose id attribute parses as an integer names a requested id. -/
def FetchOK (fetch : Finset Nat → List DocNode) : Prop :=
  ∀ s, ∀ n ∈ fetch s, ∀ i, sqliteToNat? n.id = some i → i ∈ s

/-- A deterministic stand-in used to instantiate the `random.sample` oracle in
witnesses: the first `k` elements of the sorted listing. -/
def listSample (s : Finset Nat) (k : Nat) : Finset Nat :=
  ((s.sort (· ≤ ·)).take k).toFinset

/-- An API stand-in returning no elements, used to instantiate the fetch
oracle in witnesses. -/
def emptyFetch : Finset Nat → List DocNode := fun _ => []

/-! ## Helper lemmas -/

/-- The deterministic sample stand-in satisfies `random.sample`'s contract. -/
theorem listSample_ok : SampleOK listSample := by
  intro s k hk
  constructor
  · intro x hx
    rw [listSample, List.mem_toFinset] at hx
    exact (Finset.mem_sort (α := Nat) (· ≤ ·)).1 ((List.take_sublist k _).subset hx)
  · rw [listSample,
      List.toFinset_card_of_nodup ((List.take_sublist k _).nodup (Finset.sort_nodup _ s)),
      List.length_take, Finset.length_sort]
    exact Nat.min_eq_left hk

/-- The UPDATE statements change no row count. -/
theorem update_entries_length (vals : List (Option String × String)) :
    ∀ rows : List Row, (update_entries rows vals).length = rows.length := by
  induction vals with
  | nil => intro rows; rfl
  | cons v vs ih =>
    intro rows
    show (update_entries (applyUpdate rows v) vs).length = rows.length
    rw [ih]
    simp only [applyUpdate, List.length_map]

/-- A single `UPDATE` leaves each row's `id` and `type` columns unchanged. -/
theorem applyUpdate_proj (rows : List Row) (v : Option String × String) :
    (applyUpdate rows v).map (fun r => (r.id, r.type)) =
      rows.map (fun r => (r.id, r.type)) := by
  simp only [applyUpdate, List.map_map]
  refine List.map_congr_left (fun r _ => ?_)
  show (fun r => (r.id, r.type)) (if sqliteToNat? v.2 = some r.id then { r with generated_on := v.1 } else r) = _
  split <;> rfl

/-- Updates via `update_entries` leave each row's `id` and `type` columns unchanged. -/
theorem update_entries_proj (vals : List (Option String × String)) :
    ∀ rows : List Row, (update_entries rows vals).map (fun r => (r.id, r.type)) =
      rows.map (fun r => (r.id, r.type)) := by
  induction vals with
  | nil => intro rows; rfl
  | cons v vs ih =>
    intro rows
    show (update_entries (applyUpdate rows v) vs).map _ = _
    rw [ih, applyUpdate_proj]

/-- The bucket id list only depends on the `id` and `type` columns. -/
theorem totalIds_congr :
    ∀ (rows rows' : List Row),
      rows.map (fun r => (r.id, r.type)) = rows'.map (fun r => (r.id, r.type)) →
      ∀ k, totalIds rows k = totalIds rows' k
  | [], [], _, _ => rfl
  | [], _ :: _, h, _ => by simp at h
  | _ :: _, [], h, _ => by simp at h
  | r :: rs, r' :: rs', h, k => by
    simp only [List.map_cons, List.cons.injEq, Prod.mk.injEq] at h
    obtain ⟨⟨hid, hty⟩, htl⟩ := h
    simp only [totalIds, List.filter_cons, hty]
    by_cases hb : bucketFilterD k r'.type
    · simp only [hb, if_pos, List.map_cons, hid]
      exact congrArg _ (totalIds_congr rs rs' htl k)
    · simp only [hb, if_neg, Bool.false_eq_true, reduceIte]
      exact totalIds_congr rs rs' htl k

/-- Updates via `update_entries` do not change the bucket id lists. -/
theorem update_entries_totalIds (rows : List Row)
    (vals : List (Option String × String)) (k : String) :
    totalIds (update_entries rows vals) k = totalIds rows k :=
  totalIds_congr _ _ (update_entries_proj vals rows) k

/-- A row whose id is outside the set covering all the UPDATE parameters is
untouched by `update_entries`. -/
theorem update_entries_get_of_notin (S : Finset Nat) :
    ∀ (vals : List (Option String × String)),
      (∀ v ∈ vals, ∀ i, sqliteToNat? v.2 = some i → i ∈ S) →
      ∀ (rows : List Row) (j : Nat) (hj : j < rows.length)
        (hj' : j < (update_entries rows vals).length),
        (rows.get ⟨j, hj⟩).id ∉ S →
        (update_entries rows vals).get ⟨j, hj'⟩ = rows.get ⟨j, hj⟩ := by
  intro vals
  induction vals with
  | nil => intro _ rows j hj hj' _; rfl
  | cons v vs ih =>
    intro hv rows j hj hj' hid
    have hlen : j < (applyUpdate rows v).length := by
      simp only [applyUpdate, List.length_map]; exact hj
    have hget : (applyUpdate rows v).get ⟨j, hlen⟩ = rows.get ⟨j, hj⟩ := by
      simp only [applyUpdate, List.get_eq_getElem, List.getElem_map]
      refine if_neg (fun hc => hid ?_)
      exact hv v (List.mem_cons_self v vs) _ hc
    have step : update_entries rows (v :: vs) = update_entries (applyUpdate rows v) vs := rfl
    have hj'' : j < (update_entries (applyUpdate rows v) vs).length := by
      rw [← step]; exact hj'
    calc (update_entries rows (v :: vs)).get ⟨j, hj'⟩
        = (update_entries (applyUpdate rows v) vs).get ⟨j, hj''⟩ := by
          congr 1
      _ = (applyUpdate rows v).get ⟨j, hlen⟩ := by
          refine ih (fun w hw => hv w (List.mem_cons_of_mem v hw)) _ j hlen hj'' ?_
          rw [hget]; exact hid
      _ = rows.get ⟨j, hj⟩ := hget

/-- Shape of the event trace emitted by the download loop: zero or more
completed batches (API request, document write, mark-fetched, commit),
optionally ending in one batch truncated by the `ZeroDivisionError` of the
progress line, which strikes after the mark-fetched but before the commit. -/
inductive Blocks : List Event → Prop where
  | nil : Blocks []
  | cons (s : Finset Nat) (v : List (Option String × String)) {rest : List Event} :
      Blocks rest →
      Blocks (Event.fetchReq s :: Event.persistDoc :: Event.markFetched v ::
        Event.commit :: rest)
  | last (s : Finset Nat) (v : List (Option String × String)) :
      Blocks [Event.fetchReq s, Event.persistDoc, Event.markFetched v]

/-- A well-formed batch trace passes the persist-before-commit check from any
starting flag. -/
theorem pbc_of_blocks {L : List Event} (h : Blocks L) : ∀ f, pbc f L = true := by
  induction h with
  | nil => intro f; rfl
  | cons s v _ ih => intro f; simpa [pbc] using ih false
  | last s v => intro f; rfl

/-- Requests of a one-batch trace chunk. -/
theorem reqsOf_chunk (td : Finset Nat) (vals : List (Option String × String))
    (t : List Event) :
    reqsOf (t ++ [Event.fetchReq td, Event.persistDoc, Event.markFetched vals]) =
      reqsOf t ++ [td] := by
  simp [reqsOf]

/-- Requests ignore a commit event. -/
theorem reqsOf_commit (t : List Event) :
    reqsOf (t ++ [Event.commit]) = reqsOf t := by
  simp [reqsOf]

/-- Structure of every terminating run of the download loop: the final trace
extends the starting trace by a well-formed sequence of batch blocks, and —
when the entering batch size is positive — the number of API requests made is
bounded by the remaining requested count. -/
theorem downloadLoop_blocks (fetch : Finset Nat → List DocNode)
    (sample : Finset Nat → Nat → Finset Nat) (nt : Nat) :
    ∀ (fuel : Nat) (st : DlState) (r : DlOutcome),
      downloadLoop fetch sample nt fuel st = some r →
      ∃ L, (outState r).trace = st.trace ++ L ∧ Blocks L ∧
        (1 ≤ st.num_batch → (reqsOf L).length ≤ st.num_entries.toNat) := by
  intro fuel
  induction fuel with
  | zero =>
    intro st r h
    by_cases hne : st.num_entries ≤ 0
    · rw [downloadLoop, if_pos hne] at h
      cases h
      exact ⟨[], by simp [outState], Blocks.nil, fun _ => by simp [reqsOf]⟩
    · rw [downloadLoop, if_neg hne] at h
      cases h
  | succ fuel ih =>
    intro st r h
    by_cases hne : st.num_entries ≤ 0
    · rw [downloadLoop, if_pos hne] at h
      cases h
      exact ⟨[], by simp [outState], Blocks.nil, fun _ => by simp [reqsOf]⟩
    · rw [downloadLoop, if_neg hne] at h
      by_cases hnt : nt = 0
      · rw [if_pos hnt] at h
        cases h
        refine ⟨[Event.fetchReq (nextBatch sample st.not_seen
            (min st.num_batch st.num_entries.toNat)), Event.persistDoc,
            Event.markFetched ((fetch (nextBatch sample st.not_seen
              (min st.num_batch st.num_entries.toNat))).map entry_to_tuple)],
          by simp [outState, dlStep], Blocks.last _ _, fun _ => ?_⟩
        have : 1 ≤ st.num_entries.toNat := by omega
        simpa [reqsOf] using this
      · rw [if_neg hnt] at h
        obtain ⟨L', htr, hbl, hlen⟩ := ih _ r h
        refine ⟨Event.fetchReq (nextBatch sample st.not_seen
            (min st.num_batch st.num_entries.toNat)) :: Event.persistDoc ::
            Event.markFetched ((fetch (nextBatch sample st.not_seen
              (min st.num_batch st.num_entries.toNat))).map entry_to_tuple) ::
            Event.commit :: L', ?_, Blocks.cons _ _ hbl, ?_⟩
        · rw [htr]
          simp [dlStep]
        · intro hb
          have hnb : 1 ≤ min st.num_batch st.num_entries.toNat := by omega
          have hlen' := hlen (by simpa [dlStep] using hnb)
          have hne' : (st.num_entries - (min st.num_batch st.num_entries.toNat : Nat)).toNat
              ≤ st.num_entries.toNat - 1 := by omega
          simp only [dlStep] at hlen'
          simp only [reqsOf, List.filterMap_cons, List.length_cons]
          have : (reqsOf L').length ≤ st.num_entries.toNat - 1 := le_trans hlen' hne'
          simp only [reqsOf] at this
          omega

/-- The batch is always drawn from `not_seen`. -/
theorem nextBatch_subset {sample : Finset Nat → Nat → Finset Nat}
    (hs : SampleOK sample) (u : Finset Nat) (b : Nat) :
    nextBatch sample u b ⊆ u := by
  unfold nextBatch
  split
  · exact Finset.Subset.refl u
  · next h => exact (hs u b (le_of_lt (lt_of_not_le h))).1

/-- The batch size is the whole remainder or the batch bound, whichever is
smaller. -/
theorem nextBatch_card {sample : Finset Nat → Nat → Finset Nat}
    (hs : SampleOK sample) (u : Finset Nat) (b : Nat) :
    (nextBatch sample u b).card = min u.card b := by
  unfold nextBatch
  split
  · next h => exact (Nat.min_eq_left h).symm
  · next h =>
    rw [(hs u b (le_of_lt (lt_of_not_le h))).2,
      Nat.min_eq_right (le_of_lt (lt_of_not_le h))]

/-- With a positive batch size, the requested count's worth of fuel is enough:
each iteration decrements the remaining count by at least one. -/
theorem downloadLoop_total (fetch : Finset Nat → List DocNode)
    (sample : Finset Nat → Nat → Finset Nat) (nt : Nat) :
    ∀ (fuel : Nat) (st : DlState), st.num_entries.toNat ≤ fuel →
      1 ≤ st.num_batch → (downloadLoop fetch sample nt fuel st).isSome := by
  intro fuel
  induction fuel with
  | zero =>
    intro st hfu _
    have hne : st.num_entries ≤ 0 := by omega
    rw [downloadLoop, if_pos hne]
    rfl
  | succ fuel ih =>
    intro st hfu hb
    by_cases hne : st.num_entries ≤ 0
    · rw [downloadLoop, if_pos hne]; rfl
    · rw [downloadLoop, if_neg hne]
      by_cases hnt : nt = 0
      · rw [if_pos hnt]; rfl
      · rw [if_neg hnt]
        refine ih _ ?_ ?_
        · show (st.num_entries - ((min st.num_batch st.num_entries.toNat : Nat) : Int)).toNat ≤ fuel
          omega
        · show 1 ≤ min st.num_batch st.num_entries.toNat
          omega

/-- Folding unions from an arbitrary seed. -/
theorem foldr_union_init (xs : List (Finset Nat)) (a : Finset Nat) :
    xs.foldr (· ∪ ·) a = xs.foldr (· ∪ ·) ∅ ∪ a := by
  induction xs with
  | nil => simp
  | cons x xs ih => simp [List.foldr_cons, ih, Finset.union_assoc]

/-- The requested-ids union over a trace extended by one committed batch. -/
theorem unionReqs_chunk (t : List Event) (td : Finset Nat)
    (v : List (Option String × String)) :
    unionReqs (t ++ [Event.fetchReq td, Event.persistDoc, Event.markFetched v,
      Event.commit]) = unionReqs t ∪ td := by
  unfold unionReqs
  have hr : reqsOf (t ++ [Event.fetchReq td, Event.persistDoc,
      Event.markFetched v, Event.commit]) = reqsOf t ++ [td] := by
    simp [reqsOf]
  rw [hr, List.foldr_append, List.foldr_cons, List.foldr_nil, foldr_union_init]
  simp

/-- Running the loop with `num_entries` equal to the size of `not_seen` (the
negative-count policy of lines 121-122) requests exactly the ids of
`not_seen`, batch by batch, and exits normally. -/
theorem downloadLoop_exhaust (fetch : Finset Nat → List DocNode)
    {sample : Finset Nat → Nat → Finset Nat} (nt : Nat) (hs : SampleOK sample) :
    ∀ (fuel : Nat) (st : DlState),
      1 ≤ st.num_batch →
      st.num_entries = (st.not_seen.card : Int) →
      st.not_seen.card ≤ nt →
      st.not_seen.card ≤ fuel →
      ∃ st', downloadLoop fetch sample nt fuel st = some (DlOutcome.ok st') ∧
        unionReqs st'.trace = unionReqs st.trace ∪ st.not_seen := by
  intro fuel
  induction fuel with
  | zero =>
    intro st _ hinv _ hfu
    have hcard : st.not_seen.card = 0 := by omega
    have hne : st.num_entries ≤ 0 := by omega
    rw [downloadLoop, if_pos hne]
    exact ⟨st, rfl, by rw [Finset.card_eq_zero.mp hcard, Finset.union_empty]⟩
  | succ fuel ih =>
    intro st hb hinv hnt hfu
    by_cases hne : st.num_entries ≤ 0
    · have hcard : st.not_seen.card = 0 := by omega
      rw [downloadLoop, if_pos hne]
      exact ⟨st, rfl, by rw [Finset.card_eq_zero.mp hcard, Finset.union_empty]⟩
    · have hpos : 0 < st.not_seen.card := by omega
      have hnt0 : nt ≠ 0 := by omega
      rw [downloadLoop, if_neg hne, if_neg hnt0]
      have hnb_le : min st.num_batch st.num_entries.toNat ≤ st.not_seen.card := by omega
      have htd_sub : nextBatch sample st.not_seen
          (min st.num_batch st.num_entries.toNat) ⊆ st.not_seen :=
        nextBatch_subset hs _ _
      have htd_card : (nextBatch sample st.not_seen
          (min st.num_batch st.num_entries.toNat)).card =
            min st.num_batch st.num_entries.toNat := by
        rw [nextBatch_card hs]
        omega
      have hsd_card : (st.not_seen \ nextBatch sample st.not_seen
          (min st.num_batch st.num_entries.toNat)).card =
            st.not_seen.card - min st.num_batch st.num_entries.toNat := by
        rw [Finset.card_sdiff htd_sub, htd_card]
      obtain ⟨st', heq, hun⟩ := ih
        { dlStep fetch sample st with
          trace := (dlStep fetch sample st).trace ++ [Event.commit] }
        (by show 1 ≤ min st.num_batch st.num_entries.toNat; omega)
        (by
          show st.num_entries - ((min st.num_batch st.num_entries.toNat : Nat) : Int) =
            ((st.not_seen \ nextBatch sample st.not_seen
              (min st.num_batch st.num_entries.toNat)).card : Int)
          rw [hsd_card]
          omega)
        (by
          show (st.not_seen \ _).card ≤ nt
          rw [hsd_card]
          omega)
        (by
          show (st.not_seen \ _).card ≤ fuel
          rw [hsd_card]
          omega)
      refine ⟨st', heq, ?_⟩
      rw [hun]
      show unionReqs ((dlStep fetch sample st).trace ++ [Event.commit]) ∪ _ = _
      have : (dlStep fetch sample st).trace ++ [Event.commit] =
          st.trace ++ [Event.fetchReq (nextBatch sample st.not_seen
            (min st.num_batch st.num_entries.toNat)), Event.persistDoc,
            Event.markFetched ((fetch (nextBatch sample st.not_seen
              (min st.num_batch st.num_entries.toNat))).map entry_to_tuple),
            Event.commit] := by
        simp [dlStep]
      rw [this, unionReqs_chunk]
      simp only [dlStep]
      rw [Finset.union_assoc, Finset.union_sdiff_of_subset htd_sub]

/-- Through any terminating run of the download loop — with the API answering
only for requested ids and `random.sample` honouring its contract — a row
whose `generated_on` is already set and whose id lies outside the remaining
`not_seen` set keeps its `generated_on`, `id` and `type` columns, and the
bucket id lists of the table are unchanged. -/
theorem downloadLoop_inv (fetch : Finset Nat → List DocNode)
    {sample : Finset Nat → Nat → Finset Nat}
    (hfo : FetchOK fetch) (hs : SampleOK sample) (nt : Nat) (j : Nat) (d : String) :
    ∀ (fuel : Nat) (st : DlState) (r : DlOutcome),
      downloadLoop fetch sample nt fuel st = some r →
      ∀ (hj : j < st.db.length),
        (st.db.get ⟨j, hj⟩).generated_on = some d →
        (st.db.get ⟨j, hj⟩).id ∉ st.not_seen →
        ∃ hj2 : j < (outState r).db.length,
          ((outState r).db.get ⟨j, hj2⟩).generated_on = some d ∧
          ((outState r).db.get ⟨j, hj2⟩).id = (st.db.get ⟨j, hj⟩).id ∧
          ((outState r).db.get ⟨j, hj2⟩).type = (st.db.get ⟨j, hj⟩).type ∧
          ∀ k, totalIds (outState r).db k = totalIds st.db k := by
  intro fuel
  induction fuel with
  | zero =>
    intro st r h hj hgen hid
    by_cases hne : st.num_entries ≤ 0
    · rw [downloadLoop, if_pos hne] at h
      cases h
      exact ⟨hj, hgen, rfl, rfl, fun _ => rfl⟩
    · rw [downloadLoop, if_neg hne] at h
      cases h
  | succ fuel ih =>
    intro st r h hj hgen hid
    by_cases hne : st.num_entries ≤ 0
    · rw [downloadLoop, if_pos hne] at h
      cases h
      exact ⟨hj, hgen, rfl, rfl, fun _ => rfl⟩
    · rw [downloadLoop, if_neg hne] at h
      have hv : ∀ v ∈ (fetch (nextBatch sample st.not_seen
          (min st.num_batch st.num_entries.toNat))).map entry_to_tuple,
          ∀ i, sqliteToNat? v.2 = some i → i ∈ st.not_seen := by
        intro v hvm i hi
        obtain ⟨n, hn, rfl⟩ := List.mem_map.mp hvm
        exact nextBatch_subset hs st.not_seen _ (hfo _ n hn i hi)
      have hjE : j < (update_entries st.db ((fetch (nextBatch sample st.not_seen
          (min st.num_batch st.num_entries.toNat))).map entry_to_tuple)).length := by
        rw [update_entries_length]
        exact hj
      have huntouched : ∀ p, (update_entries st.db ((fetch (nextBatch sample
          st.not_seen (min st.num_batch st.num_entries.toNat))).map
            entry_to_tuple)).get ⟨j, p⟩ = st.db.get ⟨j, hj⟩ :=
        fun p => update_entries_get_of_notin st.not_seen _ hv st.db j hj p hid
      by_cases hnt : nt = 0
      · rw [if_pos hnt] at h
        cases h
        refine ⟨hjE, ?_, ?_, ?_, ?_⟩
        · show ((update_entries st.db ((fetch (nextBatch sample st.not_seen
            (min st.num_batch st.num_entries.toNat))).map
              entry_to_tuple)).get ⟨j, hjE⟩).generated_on = some d
          rw [huntouched]
          exact hgen
        · show ((update_entries st.db ((fetch (nextBatch sample st.not_seen
            (min st.num_batch st.num_entries.toNat))).map
              entry_to_tuple)).get ⟨j, hjE⟩).id = _
          rw [huntouched]
        · show ((update_entries st.db ((fetch (nextBatch sample st.not_seen
            (min st.num_batch st.num_entries.toNat))).map
              entry_to_tuple)).get ⟨j, hjE⟩).type = _
          rw [huntouched]
        · intro k
          exact update_entries_totalIds _ _ _
      · rw [if_neg hnt] at h
        have hgenE : ((update_entries st.db ((fetch (nextBatch sample st.not_seen
            (min st.num_batch st.num_entries.toNat))).map
              entry_to_tuple)).get ⟨j, hjE⟩).generated_on = some d := by
          rw [huntouched]
          exact hgen
        have hidE : ((update_entries st.db ((fetch (nextBatch sample st.not_seen
            (min st.num_batch st.num_entries.toNat))).map
              entry_to_tuple)).get ⟨j, hjE⟩).id ∉
            st.not_seen \ nextBatch sample st.not_seen
              (min st.num_batch st.num_entries.toNat) := by
          rw [huntouched]
          intro hx
          exact hid (Finset.mem_sdiff.mp hx).1
        obtain ⟨hj2, hgen2, hid2, hty2, htot2⟩ := ih _ r h hjE hgenE hidE
        refine ⟨hj2, hgen2, ?_, ?_, ?_⟩
        · rw [hid2]
          show ((update_entries st.db ((fetch (nextBatch sample st.not_seen
            (min st.num_batch st.num_entries.toNat))).map
              entry_to_tuple)).get ⟨j, hjE⟩).id = _
          rw [huntouched]
        · rw [hty2]
          show ((update_entries st.db ((fetch (nextBatch sample st.not_seen
            (min st.num_batch st.num_entries.toNat))).map
              entry_to_tuple)).get ⟨j, hjE⟩).type = _
          rw [huntouched]
        · intro k
          rw [htot2 k]
          show totalIds (update_entries st.db ((fetch (nextBatch sample st.not_seen
            (min st.num_batch st.num_entries.toNat))).map entry_to_tuple)) k = _
          exact update_entries_totalIds _ _ _

/-- Counting a conjunctive filter never exceeds counting the broader one. -/
theorem length_filter_and_le {α : Type} (l : List α) (p q : α → Bool) :
    (l.filter (fun a => p a && q a)).length ≤ (l.filter p).length := by
  induction l with
  | nil => exact Nat.le_refl 0
  | cons a l ih =>
    simp only [List.filter_cons]
    by_cases h1 : (p a && q a) = true
    · rw [if_pos h1, if_pos ((Bool.and_eq_true _ _).mp h1).1]
      exact Nat.succ_le_succ ih
    · rw [if_neg h1]
      by_cases h2 : p a = true
      · rw [if_pos h2]
        exact Nat.le_succ_of_le ih
      · rw [if_neg h2]
        exact ih

/-! ## Concrete fixtures used by counterexamples and witnesses -/

/-- A document record with id `1` and no `generated-on` attribute. -/
def dn1 : DocNode := ⟨"1", none⟩

/-- A document record with id `2` and no `generated-on` attribute. -/
def dn2 : DocNode := ⟨"2", none⟩

/-- A document record with id `3` and no `generated-on` attribute. -/
def dn3 : DocNode := ⟨"3", none⟩

/-- A record for entry 1 fetched on date `a`. -/
def nodeA : DocNode := ⟨"1", some "2020-01-01"⟩

/-- A second record for entry 1, re-fetched on date `b` by a later run. -/
def nodeB : DocNode := ⟨"1", some "2020-02-02"⟩

/-- A third record for entry 1, re-fetched on date `c` by a later run. -/
def nodeC : DocNode := ⟨"1", some "2020-03-03"⟩

/-- A master-list item for entry 1 of kind `anime`. -/
def item1 : Item := ⟨1, none, some "anime", none, none, none⟩

/-- A store holding the single anime entry 1, already fetched. -/
def dbFetched : List Row :=
  [{ id := 1, gid := none, type := some "anime", name := none,
     precision := none, vintage := none, generated_on := some "2020-01-01" }]

/-! ## Claim theorems -/

/-- C1: for the id sequence `[1,2,1,3,2]` the code does return `[1,2,3]` —
but the universal first-occurrence-wins property the claim asserts fails:
on `[1,1,1]` the in-place removal skips the element shifted into the removed
slot and leaves `[1,1]`, a surviving duplicate, instead of `[1]`. -/
theorem remove_duplicates_c1 :
    remove_duplicates [dn1, dn2, dn1, dn3, dn2] = [dn1, dn2, dn3] ∧
    remove_duplicates [dn1, dn1, dn1] = [dn1, dn1] := by
  constructor <;> decide

/-- C3: the two query sites build the same two-way bucket: `manga` and
`anthology` are selected for a manga-like request, and any other kind string
(`anime` included) is selected for an anime request; the filter used by
`download_entries` coincides with the one used by `progress` on every
input. -/
theorem kind_bucketing_c3 :
    (∀ (kind : String) (t : Option String),
      bucketFilterD kind t = bucketFilterP kind t) ∧
    (∀ s : String, bucketFilterD "manga" (some s) =
      (s == "manga" || s == "anthology")) ∧
    (∀ s : String, bucketFilterD "anime" (some s) =
      !(s == "manga" || s == "anthology")) ∧
    bucketFilterD "manga" (some "anthology") = true ∧
    bucketFilterD "anime" (some "anthology") = false :=
  ⟨fun _ _ => rfl, fun _ => rfl, fun _ => rfl, by decide, by decide⟩

/-- C4: under `random.sample`'s contract, the selected batch is a subset of
`unseen` (hence has no repeats and nothing outside `unseen`) of size exactly
`min |unseen| batchSize`: the whole set when it fits, a sample of exactly
`batchSize` otherwise. -/
theorem nextBatch_bounds (sample : Finset Nat → Nat → Finset Nat)
    (hs : SampleOK sample) (unseen : Finset Nat) (batchSize : Nat)
    (_hb : 0 < batchSize) :
    nextBatch sample unseen batchSize ⊆ unseen ∧
    (nextBatch sample unseen batchSize).card = min unseen.card batchSize :=
  ⟨nextBatch_subset hs unseen batchSize, nextBatch_card hs unseen batchSize⟩

/-- Witness for C4 at `unseen = {1, 2, 3}`, `batchSize = 2`. -/
theorem nextBatch_bounds_witness :
    SampleOK listSample ∧ 0 < 2 ∧
    (nextBatch listSample ({1, 2, 3} : Finset Nat) 2 ⊆ ({1, 2, 3} : Finset Nat) ∧
     (nextBatch listSample ({1, 2, 3} : Finset Nat) 2).card =
       min ({1, 2, 3} : Finset Nat).card 2) :=
  ⟨listSample_ok, by decide,
    nextBatch_bounds listSample listSample_ok ({1, 2, 3} : Finset Nat) 2 (by decide)⟩

/-- C5 counterexample: on an empty store `progress` itself does not fail —
it returns the pair `(0, 0)` — and the failure the program produces is the
unguarded zero division in the caller's percentage computation, contradicting
the claim that the Progress operation fails with `EmptyStoreError` instead of
dividing by zero. -/
theorem progress_empty_c5_counterexample :
    progress [] "anime" = (0, 0) ∧
    statusReport [] "anime" = Except.error MainError.zeroDivision :=
  ⟨rfl, rfl⟩

/-- C5 amended: `progress` always returns the pair (fetched, total) of row
counts for the kind bucket, with fetched ≤ total; when total is zero the
status path of `main` fails with the unguarded division by zero (so an empty
bucket is never reported as a 0% success), and otherwise it reports exactly
the `progress` pair. -/
theorem progress_c5 (db : List Row) (kind : String) :
    progress db kind = ((db.filter (fun r => bucketFilterP kind r.type &&
        r.generated_on.isSome)).length,
      (db.filter (fun r => bucketFilterP kind r.type)).length) ∧
    (progress db kind).1 ≤ (progress db kind).2 ∧
    statusReport db kind = (if (progress db kind).2 = 0
      then Except.error MainError.zeroDivision
      else Except.ok (progress db kind)) :=
  ⟨rfl, length_filter_and_le db _ _, rfl⟩

/-- The empty API stand-in trivially answers only for requested ids. -/
theorem emptyFetch_ok : FetchOK emptyFetch := by
  intro s n hn
  simp [emptyFetch] at hn

/-- An id carried by a row whose `generated_on` is set is never in the
unfetched set of any kind, provided ids are unique (the PRIMARY KEY) and the
table's bucket id lists agree with a reference table `db0` in which the row
also sits at position `j`. -/
theorem notin_unfetched_of_fetched (db0 dbF : List Row)
    (hnd : (db0.map Row.id).Nodup) (j : Nat)
    (hj0 : j < db0.length) (hjF : j < dbF.length)
    (hid : (dbF.get ⟨j, hjF⟩).id = (db0.get ⟨j, hj0⟩).id)
    (hty : (dbF.get ⟨j, hjF⟩).type = (db0.get ⟨j, hj0⟩).type)
    (hgen : ((dbF.get ⟨j, hjF⟩).generated_on).isSome)
    (htot : ∀ k, totalIds dbF k = totalIds db0 k) (k : String) :
    (db0.get ⟨j, hj0⟩).id ∉ unfetchedIds dbF k := by
  intro hmem
  rw [unfetchedIds, Finset.mem_sdiff] at hmem
  obtain ⟨htotmem, hseen⟩ := hmem
  by_cases hb : bucketFilterD k ((dbF.get ⟨j, hjF⟩).type) = true
  · apply hseen
    rw [List.mem_toFinset]
    refine List.mem_map.mpr ⟨dbF.get ⟨j, hjF⟩, ?_, hid⟩
    refine List.mem_filter.mpr ⟨List.get_mem dbF j hjF, ?_⟩
    rw [Bool.and_eq_true]
    exact ⟨hb, hgen⟩
  · rw [List.mem_toFinset, htot k] at htotmem
    obtain ⟨row', hrow', hrid⟩ := List.mem_map.mp htotmem
    obtain ⟨hrow'db, hrow'b⟩ := List.mem_filter.mp hrow'
    have hrow'eq : row' = db0.get ⟨j, hj0⟩ :=
      List.inj_on_of_nodup_map hnd hrow'db (List.get_mem db0 j hj0) hrid
    apply hb
    rw [hty, ← hrow'eq]
    exact hrow'b

/-- C6: regeneration is not idempotent. With the master list `[entry 1]` and
an anime document carrying three records for id 1 dated a, b, c (duplicates a
crashed run can leave), the first regeneration deduplicates the document to
the records dated a, c and marks entry 1 with date c; the second regeneration
deduplicates that document further to just the record dated a and marks entry
1 with date a: the two resulting index stores differ. -/
theorem regenerate_not_idempotent_c6 :
    (regenerate_database [item1] (some [nodeA, nodeB, nodeC]) none).rows =
      [{ id := 1, gid := none, type := some "anime", name := none,
         precision := none, vintage := none, generated_on := some "2020-03-03" }] ∧
    (regenerate_database [item1]
        (regenerate_database [item1] (some [nodeA, nodeB, nodeC]) none).animeDoc
        (regenerate_database [item1] (some [nodeA, nodeB, nodeC]) none).mangaDoc).rows =
      [{ id := 1, gid := none, type := some "anime", name := none,
         precision := none, vintage := none, generated_on := some "2020-01-01" }] ∧
    (regenerate_database [item1] (some [nodeA, nodeB, nodeC]) none).rows ≠
      (regenerate_database [item1]
        (regenerate_database [item1] (some [nodeA, nodeB, nodeC]) none).animeDoc
        (regenerate_database [item1] (some [nodeA, nodeB, nodeC]) none).mangaDoc).rows := by
  refine ⟨by decide, by decide, by decide⟩

/-- C7: in every run of the fetch loop, each batch's trace writes the
document to disk strictly before that batch's index update is committed —
every terminating trace of `download_entries` passes the
persist-before-commit check (and a run that never terminates commits
nothing). -/
theorem persist_before_commit_c7 (fetch : Finset Nat → List DocNode)
    (sample : Finset Nat → Nat → Finset Nat) (db : List Row)
    (entry_type : String) (num_entries : Int) (num_batch : Nat)
    (doc0 : Option (List DocNode)) :
    (download_entries fetch sample db entry_type num_entries num_batch doc0).all
      (fun r => pbc false (outState r).trace) = true := by
  cases hdl : download_entries fetch sample db entry_type num_entries num_batch doc0 with
  | none => rfl
  | some r =>
    obtain ⟨L, htr, hbl, _⟩ := downloadLoop_blocks fetch sample
      (totalIds db entry_type).length _ _ r hdl
    simp only [Option.all]
    rw [htr]
    simpa using pbc_of_blocks hbl false

/-- What a `download_entries` run guarantees for an id already fetched before
the run: a row still carries that id with the same fetch date, and the id is
in the unfetched set of neither kind the CLI can request. A run that runs out
of fuel guarantees nothing (the loop never exits). -/
def MonotoneAt (o : Option DlOutcome) (i : Nat) (d : String) : Prop :=
  match o with
  | none => True
  | some r =>
    (∃ row ∈ (outState r).db, row.id = i ∧ row.generated_on = some d) ∧
    i ∉ unfetchedIds (outState r).db "anime" ∧
    i ∉ unfetchedIds (outState r).db "manga"

/-- C2: once an id's `generated_on` is non-null, no `update_entries` call
performed by the fetch loop changes it — the loop only ever updates ids drawn
from the `not_seen` set, which excludes every fetched id — and the id never
reappears in the unfetched-id set of either kind. Hypotheses: the API answers
only for requested ids, `random.sample` honours its contract, and ids are
unique (the PRIMARY KEY). -/
theorem download_monotone_c2 (fetch : Finset Nat → List DocNode)
    (sample : Finset Nat → Nat → Finset Nat) (db : List Row)
    (entry_type : String) (num_entries : Int) (num_batch : Nat)
    (doc0 : Option (List DocNode))
    (hfo : FetchOK fetch) (hs : SampleOK sample)
    (hnd : (db.map Row.id).Nodup)
    (j : Nat) (hj : j < db.length) (d : String)
    (hd : (db.get ⟨j, hj⟩).generated_on = some d) :
    MonotoneAt (download_entries fetch sample db entry_type num_entries num_batch doc0)
      (db.get ⟨j, hj⟩).id d := by
  cases hdl : download_entries fetch sample db entry_type num_entries num_batch doc0 with
  | none => exact trivial
  | some r =>
    have hnotin : (db.get ⟨j, hj⟩).id ∉ unfetchedIds db entry_type :=
      notin_unfetched_of_fetched db db hnd j hj hj rfl rfl
        (by rw [hd]; rfl) (fun _ => rfl) entry_type
    obtain ⟨hj2, hgen2, hid2, hty2, htot2⟩ := downloadLoop_inv fetch hfo hs
      (totalIds db entry_type).length j d _ _ r hdl hj hd hnotin
    refine ⟨⟨(outState r).db.get ⟨j, hj2⟩,
      List.get_mem ((outState r).db) j hj2, hid2, hgen2⟩, ?_, ?_⟩
    · exact notin_unfetched_of_fetched db (outState r).db hnd j hj hj2
        hid2 hty2 (by rw [hgen2]; rfl) htot2 "anime"
    · exact notin_unfetched_of_fetched db (outState r).db hnd j hj hj2
        hid2 hty2 (by rw [hgen2]; rfl) htot2 "manga"

/-- Witness for C2: a one-row store whose single anime entry is already
fetched, the benign oracles, and a zero-count run. -/
theorem download_monotone_c2_witness :
    FetchOK emptyFetch ∧ SampleOK listSample ∧
    (dbFetched.map Row.id).Nodup ∧
    (dbFetched.get ⟨0, by decide⟩).generated_on = some "2020-01-01" ∧
    MonotoneAt (download_entries emptyFetch listSample dbFetched "anime" 0 50 none)
      (dbFetched.get ⟨0, by decide⟩).id "2020-01-01" :=
  ⟨emptyFetch_ok, listSample_ok, by decide, by decide,
    download_monotone_c2 emptyFetch listSample dbFetched "anime" 0 50 none
      emptyFetch_ok listSample_ok (by decide) 0 (by decide) "2020-01-01" (by decide)⟩

/-- The final state of the C8 counterexample run: both loop iterations ran
after `not_seen` was already empty, each issuing a fetch request with an
empty id list, and the loop then exited normally. -/
def stExhausted : DlState where
  db := dbFetched
  doc := []
  not_seen := ∅
  num_entries := 0
  num_batch := 1
  trace := [Event.fetchReq ∅, Event.persistDoc, Event.markFetched [], Event.commit,
            Event.fetchReq ∅, Event.persistDoc, Event.markFetched [], Event.commit]

/-- C8 counterexample: with every id of the requested kind already fetched
(the unfetched set is empty) and two more entries requested at batch size
one, the run does not stop when `unseen` is exhausted and raises no
`ExhaustedError` or zero-progress signal: it issues two further fetch
requests with empty id lists and returns normally. -/
theorem download_no_exhaustion_signal_c8 :
    unfetchedIds dbFetched "anime" = ∅ ∧
    download_entries emptyFetch listSample dbFetched "anime" 2 1 none =
      some (DlOutcome.ok stExhausted) := by
  constructor <;> decide

/-- A `download_entries` result that did terminate, within the stated number
of API requests. An exhausted fuel (`none`, the model of an endless loop)
violates this. -/
def TerminatesWithin (o : Option DlOutcome) (n : Nat) : Prop :=
  match o with
  | some r => (reqsOf (outState r).trace).length ≤ n
  | none => False

/-- C8 amended: with a positive batch size the fetch loop always terminates —
the remaining requested count strictly decreases every iteration — after at
most the requested count's worth of API requests (the count of unfetched ids
when the requested count is negative). But on early exhaustion of `unseen`
there is no stop and no explicit signal: as the counterexample shows, the
loop keeps issuing empty-id fetch requests until the count is consumed. -/
theorem download_terminates_c8 (fetch : Finset Nat → List DocNode)
    (sample : Finset Nat → Nat → Finset Nat) (db : List Row)
    (entry_type : String) (num_entries : Int) (num_batch : Nat)
    (doc0 : Option (List DocNode)) (hb : 1 ≤ num_batch) :
    TerminatesWithin (download_entries fetch sample db entry_type num_entries num_batch doc0)
      (if num_entries < 0 then (unfetchedIds db entry_type).card
       else num_entries.toNat) := by
  have hsome := downloadLoop_total fetch sample (totalIds db entry_type).length
    (if num_entries < 0 then ((unfetchedIds db entry_type).card : Int)
     else num_entries).toNat
    { db := db, doc := doc0.getD [], not_seen := unfetchedIds db entry_type,
      num_entries := if num_entries < 0 then ((unfetchedIds db entry_type).card : Int)
        else num_entries,
      num_batch := num_batch, trace := [] } (Nat.le_refl _) hb
  obtain ⟨r, hr⟩ := Option.isSome_iff_exists.mp hsome
  have hdl : download_entries fetch sample db entry_type num_entries num_batch doc0 =
      some r := hr
  rw [hdl]
  obtain ⟨L, htr, _, hlen⟩ := downloadLoop_blocks fetch sample
    (totalIds db entry_type).length _ _ r hr
  show (reqsOf (outState r).trace).length ≤ _
  rw [htr]
  have hL := hlen hb
  dsimp only at hL
  have hreq : reqsOf (([] : List Event) ++ L) = reqsOf L := by rw [List.nil_append]
  rw [hreq]
  by_cases hneg : num_entries < 0
  · rw [if_pos hneg] at hL
    rw [if_pos hneg]
    omega
  · rw [if_neg hneg] at hL
    rw [if_neg hneg]
    exact hL

/-- Witness for C8 amended at the counterexample's own input. -/
theorem download_terminates_c8_witness :
    1 ≤ 1 ∧
    TerminatesWithin (download_entries emptyFetch listSample dbFetched "anime" 2 1 none)
      (if (2 : Int) < 0 then (unfetchedIds dbFetched "anime").card
       else (2 : Int).toNat) :=
  ⟨Nat.le_refl 1,
    download_terminates_c8 emptyFetch listSample dbFetched "anime" 2 1 none (Nat.le_refl 1)⟩

/-- A store holding the single anime entry 1, not yet fetched. -/
def dbUnfetched : List Row :=
  [{ id := 1, gid := none, type := some "anime", name := none,
     precision := none, vintage := none, generated_on := none }]

/-- A `download_entries` run that exited the loop normally and whose API
requests, over the whole run, cover exactly the stated id set. -/
def OkWithReqs (o : Option DlOutcome) (s : Finset Nat) : Prop :=
  match o with
  | some (DlOutcome.ok st) => unionReqs st.trace = s
  | _ => False

/-- C9: a negative requested count is treated as "fetch everything that is
unfetched": the run terminates normally and the union of the id sets it
requests from the API is exactly the unfetched-id set of the requested kind —
every currently-unfetched id and nothing more. -/
theorem download_all_when_negative_c9 (fetch : Finset Nat → List DocNode)
    (sample : Finset Nat → Nat → Finset Nat) (db : List Row)
    (entry_type : String) (num_entries : Int) (num_batch : Nat)
    (doc0 : Option (List DocNode))
    (hs : SampleOK sample) (hb : 1 ≤ num_batch) (hneg : num_entries < 0) :
    OkWithReqs (download_entries fetch sample db entry_type num_entries num_batch doc0)
      (unfetchedIds db entry_type) := by
  have hnt : (unfetchedIds db entry_type).card ≤ (totalIds db entry_type).length := by
    refine le_trans (Finset.card_le_card ?_) (List.toFinset_card_le _)
    rw [unfetchedIds]
    exact Finset.sdiff_subset
  obtain ⟨st', heq, hun⟩ := downloadLoop_exhaust fetch
    (totalIds db entry_type).length hs
    (if num_entries < 0 then ((unfetchedIds db entry_type).card : Int)
     else num_entries).toNat
    { db := db, doc := doc0.getD [], not_seen := unfetchedIds db entry_type,
      num_entries := if num_entries < 0 then ((unfetchedIds db entry_type).card : Int)
        else num_entries,
      num_batch := num_batch, trace := [] }
    hb (by dsimp only; rw [if_pos hneg]) hnt (by dsimp only; rw [if_pos hneg]; omega)
  have hdl : download_entries fetch sample db entry_type num_entries num_batch doc0 =
      some (DlOutcome.ok st') := heq
  rw [hdl]
  show unionReqs st'.trace = unfetchedIds db entry_type
  rw [hun]
  dsimp only
  rw [show unionReqs [] = ∅ from rfl, Finset.empty_union]

/-- Witness for C9: a one-row store with one unfetched anime entry, requested
count `-1`. -/
theorem download_all_when_negative_c9_witness :
    SampleOK listSample ∧ 1 ≤ 50 ∧ (-1 : Int) < 0 ∧
    OkWithReqs (download_entries emptyFetch listSample dbUnfetched "anime" (-1) 50 none)
      (unfetchedIds dbUnfetched "anime") :=
  ⟨listSample_ok, by omega, by omega,
    download_all_when_negative_c9 emptyFetch listSample dbUnfetched "anime" (-1) 50 none
      listSample_ok (by omega) (by omega)⟩

/-- A `download_entries` run that ended in the unhandled `ZeroDivisionError`
after a single API request carrying an empty id list. -/
def FailsZeroDivEmptyReq (o : Option DlOutcome) : Prop :=
  match o with
  | some (DlOutcome.zeroDiv st) => reqsOf st.trace = [∅]
  | _ => False

/-- C10: invoked with a positive requested count on a store holding zero
index rows of the requested kind bucket, the run first issues one fetch
request with an empty id list, then the progress computation divides
`num_seen` by `num_total = 0` and the run dies of the unguarded
`ZeroDivisionError` — no clean signal. -/
theorem download_zero_bucket_c10 (fetch : Finset Nat → List DocNode)
    (sample : Finset Nat → Nat → Finset Nat) (db : List Row)
    (entry_type : String) (num_entries : Int) (num_batch : Nat)
    (doc0 : Option (List DocNode))
    (h0 : totalIds db entry_type = []) (hpos : 0 < num_entries) :
    FailsZeroDivEmptyReq
      (download_entries fetch sample db entry_type num_entries num_batch doc0) := by
  have hunseen : unfetchedIds db entry_type = ∅ := by
    rw [unfetchedIds, h0]
    simp
  have hne : (if num_entries < 0 then ((unfetchedIds db entry_type).card : Int)
      else num_entries) = num_entries := if_neg (by omega)
  show FailsZeroDivEmptyReq (downloadLoop fetch sample (totalIds db entry_type).length
    (if num_entries < 0 then ((unfetchedIds db entry_type).card : Int)
     else num_entries).toNat
    { db := db, doc := doc0.getD [], not_seen := unfetchedIds db entry_type,
      num_entries := if num_entries < 0 then ((unfetchedIds db entry_type).card : Int)
        else num_entries,
      num_batch := num_batch, trace := [] })
  rw [hne, h0, hunseen]
  obtain ⟨m, hm⟩ : ∃ m, num_entries.toNat = m + 1 :=
    ⟨num_entries.toNat - 1, by omega⟩
  rw [hm]
  have hne0 : ¬ (num_entries ≤ 0) := by omega
  rw [downloadLoop]
  dsimp only
  rw [if_neg hne0]
  simp only [List.length_nil, if_true]
  show reqsOf (dlStep fetch sample _).trace = [∅]
  simp [dlStep, nextBatch, reqsOf]

/-- Witness for C10: the empty store and the CLI defaults (50, 50). -/
theorem download_zero_bucket_c10_witness :
    totalIds [] "anime" = [] ∧ (0 : Int) < 50 ∧
    FailsZeroDivEmptyReq
      (download_entries emptyFetch listSample [] "anime" 50 50 none) :=
  ⟨rfl, by omega,
    download_zero_bucket_c10 emptyFetch listSample [] "anime" 50 50 none rfl (by omega)⟩
